import Mathlib

/-!
Verification of the client-side real-time conferencing engine of roomler2.

Shallow embedding of:
- the layout engine (`useConferenceLayout.ts`): participant filtering,
  sorting, effective-mode resolution, primary/secondary partition,
  pin toggling;
- the active-speaker monitor (`useActiveSpeaker.ts`): the poll step
  with hold-time debounce;
- the message-channel waiter table (`stores/ws.ts`): one-shot waiters
  with timeout timers, persistent handlers, close/reconnect;
- the media session (`useMediasoup`, second revision of the file):
  buffered producer announcements drained into a serialized consume
  chain, remote-stream track aggregation, and room teardown.

JavaScript `number` values that only ever hold millisecond counts are
modelled as `Nat`; audio levels (RMS estimates in [0,1]) are modelled in
fixed-point units of 1/10000 as `Nat`, an order-preserving rescaling
under which the 0.08 speaking threshold becomes 800 — the poll logic
only ever compares levels.  The JS promise
chain `consumeChain = consumeChain.then(...)` is modelled as a task list
executed strictly in order, which is the semantics of promise chaining
on the single-threaded event loop.
-/

namespace Roomler

/-! ## Common helpers -/

/-- Lexicographic comparison of character lists by code point; models the
result of `a.localeCompare(b) <= 0` for the plain code-point locale. -/
def lexLe : List Char → List Char → Bool
  | [], _ => true
  | _ :: _, [] => false
  | c :: cs, d :: ds =>
    if c.toNat < d.toNat then true
    else if d.toNat < c.toNat then false
    else lexLe cs ds

/-- String comparison used to model `localeCompare`. -/
def strLe (a b : String) : Bool := lexLe a.data b.data

/-- JS truthiness of a nullable string (`null` and `""` are falsy). -/
def jsTruthy : Option String → Bool
  | none => false
  | some s => !(s == "")

/-! ## Layout engine (`useConferenceLayout.ts`) -/

/-- The `mode` preference (`LayoutMode` in the source). -/
inductive LayoutMode
  | auto | tiled | spotlight | sidebar
deriving DecidableEq, Repr

/-- The resolved effective mode (the source narrows `LayoutMode` to the
three non-`auto` constructors). -/
inductive ResolvedMode
  | tiled | spotlight | sidebar
deriving DecidableEq, Repr

/-- The `selfViewMode` preference. -/
inductive SelfViewMode
  | inGridCropped | inGridUncropped | floatingUncropped
deriving DecidableEq, Repr

/-- A video track of a `MediaStream`: only the fields the layout reads
(`enabled` and `readyState === 'live'`). -/
structure VideoTrack where
  enabled : Bool
  live : Bool
deriving DecidableEq, Repr

/-- A `MediaStream` as seen by the layout: its video tracks. -/
structure MStream where
  videoTracks : List VideoTrack
deriving DecidableEq, Repr

/-- Structure `LayoutParticipant` from the source. -/
structure LayoutParticipant where
  streamKey : String
  userId : String
  displayName : String
  stream : Option MStream
  isMuted : Bool
  isLocal : Bool
  isScreenShare : Bool
  isPinned : Bool
  audioLevel : Nat
deriving DecidableEq, Repr

/-- Structure `LayoutPreferences` from the source. -/
structure LayoutPreferences where
  mode : LayoutMode
  tiledMaxTiles : Nat
  selfViewMode : SelfViewMode
  hideNonVideo : Bool
  pinnedStreamKeys : List String
deriving DecidableEq, Repr

/-- Structure `ResolvedLayout` from the source. -/
structure ResolvedLayout where
  effectiveMode : ResolvedMode
  primary : List LayoutParticipant
  secondary : List LayoutParticipant
  selfViewFloating : Bool
deriving DecidableEq, Repr

/-- Constant `MAX_PINS` from the source. -/
def MAX_PINS : Nat := 6

/-- Function `hasLiveVideoTrack`: some video track is enabled and live. -/
def hasLiveVideoTrack : Option MStream → Bool
  | none => false
  | some st => st.videoTracks.any (fun t => t.enabled && t.live)

/-- Function `filterHidden`: when `hideNonVideo` is set, keep only pinned, local,
or live-video participants. -/
def filterHidden (prefs : LayoutPreferences) (l : List LayoutParticipant) :
    List LayoutParticipant :=
  if !prefs.hideNonVideo then l
  else l.filter (fun p => p.isPinned || p.isLocal || hasLiveVideoTrack p.stream)

/-- The sort comparator of `sortParticipants` read as a `≤` test
(comparator result `<= 0`): pinned first, then active speaker, then
alphabetical by display name. -/
def sortLe (ak : Option String) (a b : LayoutParticipant) : Bool :=
  if a.isPinned != b.isPinned then a.isPinned
  else
    let aA := some a.streamKey == ak
    let bA := some b.streamKey == ak
    if aA != bA then aA
    else strLe a.displayName b.displayName

/-- Stable insertion into a sorted list: a new element goes before the
first element it compares `le` to, hence before later-arriving equals. -/
def insertLe (le : α → α → Bool) (a : α) : List α → List α
  | [] => [a]
  | b :: bs => if le a b then a :: b :: bs else b :: insertLe le a bs

/-- Stable insertion sort.  JS `Array.sort` is stable, and for the total
transitive comparator `sortLe` every stable sort produces the same list,
so this is a faithful model of the source's sort. -/
def insertionSort (le : α → α → Bool) : List α → List α
  | [] => []
  | a :: as => insertLe le a (insertionSort le as)

/-- Function `sortParticipants`: a stable sort by `sortLe`. -/
def sortParticipants (ak : Option String) (l : List LayoutParticipant) :
    List LayoutParticipant :=
  insertionSort (sortLe ak) l

/-- Effective-mode resolution, transcribed from the `layout` computed:
an explicit mode wins; under `auto`, any screen share (over the full
participant list) gives `sidebar`, else any pin (over the full list)
gives `spotlight`, else a sorted (i.e. filtered) length of at most two
gives `spotlight`, else `tiled`. -/
def effectiveModeOf (prefs : LayoutPreferences) (parts : List LayoutParticipant)
    (ak : Option String) : ResolvedMode :=
  match prefs.mode with
  | .auto =>
    if parts.any (·.isScreenShare) then .sidebar
    else if (parts.filter (·.isPinned)).length > 0 then .spotlight
    else if (sortParticipants ak (filterHidden prefs parts)).length ≤ 2 then .spotlight
    else .tiled
  | .tiled => .tiled
  | .spotlight => .spotlight
  | .sidebar => .sidebar

/-- The spotlight primary region: pinned set if non-empty, else the
participant found for the active-speaker key (falling back to the first
sorted participant when absent), else the first non-local participant,
else the first participant. -/
def spotlightPrimary (sorted : List LayoutParticipant) (ak : Option String) :
    List LayoutParticipant :=
  if (sorted.filter (·.isPinned)).length > 0 then sorted.filter (·.isPinned)
  else if jsTruthy ak then
    match sorted.find? (fun p => some p.streamKey == ak) with
    | some sp => [sp]
    | none => sorted.take 1
  else
    match (sorted.filter (fun p => !p.isLocal)).head? with
    | some nl => [nl]
    | none => sorted.take 1

/-- The sidebar primary region: screen shares, else pinned, else the
first sorted participant. -/
def sidebarPrimary (sorted : List LayoutParticipant) : List LayoutParticipant :=
  if (sorted.filter (·.isScreenShare)).length > 0 then sorted.filter (·.isScreenShare)
  else if (sorted.filter (·.isPinned)).length > 0 then sorted.filter (·.isPinned)
  else sorted.take 1

/-- The secondary region: every sorted participant whose streamKey is
not among the primary keys, with the local participant dropped when the
self view floats. -/
def secondaryOf (selfFloating : Bool) (sorted primary : List LayoutParticipant) :
    List LayoutParticipant :=
  if selfFloating then
    (sorted.filter (fun p => !((primary.map (·.streamKey)).contains p.streamKey))).filter
      (fun p => !p.isLocal)
  else
    sorted.filter (fun p => !((primary.map (·.streamKey)).contains p.streamKey))

/-- The primary/secondary partition of the `layout` computed, per
effective mode, over the sorted filtered list. -/
def splitForMode (mode : ResolvedMode) (prefs : LayoutPreferences)
    (sorted : List LayoutParticipant) (ak : Option String) :
    List LayoutParticipant × List LayoutParticipant :=
  let selfFloating := prefs.selfViewMode == .floatingUncropped
  match mode with
  | .tiled =>
    ((if selfFloating then sorted.filter (fun p => !p.isLocal) else sorted).take
      prefs.tiledMaxTiles, [])
  | .spotlight =>
    (spotlightPrimary sorted ak, secondaryOf selfFloating sorted (spotlightPrimary sorted ak))
  | .sidebar =>
    (sidebarPrimary sorted, secondaryOf selfFloating sorted (sidebarPrimary sorted))

/-- The `layout` computed of `useConferenceLayout.ts`. -/
def resolveLayout (prefs : LayoutPreferences) (parts : List LayoutParticipant)
    (ak : Option String) : ResolvedLayout :=
  let sorted := sortParticipants ak (filterHidden prefs parts)
  let eff := effectiveModeOf prefs parts ak
  let pr := splitForMode eff prefs sorted ak
  { effectiveMode := eff
    primary := pr.1
    secondary := pr.2
    selfViewFloating := prefs.selfViewMode == .floatingUncropped }

/-- Function `togglePin`: unpin an already-pinned key (always succeeds), reject a
new pin at the `MAX_PINS` cap, otherwise append the key. -/
def togglePin (prefs : LayoutPreferences) (k : String) : Bool × LayoutPreferences :=
  if k ∈ prefs.pinnedStreamKeys then
    (true, { prefs with pinnedStreamKeys := prefs.pinnedStreamKeys.erase k })
  else if prefs.pinnedStreamKeys.length ≥ MAX_PINS then
    (false, prefs)
  else
    (true, { prefs with pinnedStreamKeys := prefs.pinnedStreamKeys ++ [k] })

/-! ## Layout lemmas -/

theorem mem_insertLe {le : α → α → Bool} {a x : α} {l : List α} :
    x ∈ insertLe le a l ↔ x = a ∨ x ∈ l := by
  induction l with
  | nil => simp [insertLe]
  | cons b bs ih =>
    simp only [insertLe]
    split
    · simp [List.mem_cons]
    · simp only [List.mem_cons, ih]
      tauto

theorem mem_insertionSort {le : α → α → Bool} {x : α} {l : List α} :
    x ∈ insertionSort le l ↔ x ∈ l := by
  induction l with
  | nil => simp [insertionSort]
  | cons a as ih => simp [insertionSort, mem_insertLe, ih]

theorem length_insertLe (le : α → α → Bool) (a : α) (l : List α) :
    (insertLe le a l).length = l.length + 1 := by
  induction l with
  | nil => rfl
  | cons b bs ih =>
    simp only [insertLe]
    split
    · rfl
    · simp [ih]

theorem length_insertionSort (le : α → α → Bool) (l : List α) :
    (insertionSort le l).length = l.length := by
  induction l with
  | nil => rfl
  | cons a as ih => simp [insertionSort, length_insertLe, ih]

theorem mem_sortParticipants {ak : Option String} {p : LayoutParticipant}
    {l : List LayoutParticipant} : p ∈ sortParticipants ak l ↔ p ∈ l :=
  mem_insertionSort

theorem length_sortParticipants (ak : Option String) (l : List LayoutParticipant) :
    (sortParticipants ak l).length = l.length :=
  length_insertionSort _ l

theorem spotlightPrimary_subset (sorted : List LayoutParticipant) (ak : Option String) :
    spotlightPrimary sorted ak ⊆ sorted := by
  unfold spotlightPrimary
  split_ifs with h1 h2
  · exact List.filter_subset' _
  · cases hf : sorted.find? (fun p => some p.streamKey == ak) with
    | some sp =>
      simp only [hf]
      intro x hx
      simp only [List.mem_singleton] at hx
      subst hx
      exact List.mem_of_find?_eq_some hf
    | none =>
      simp only [hf]
      exact List.take_subset _ _
  · cases hf : (sorted.filter (fun p => !p.isLocal)).head? with
    | some nl =>
      simp only [hf]
      intro x hx
      simp only [List.mem_singleton] at hx
      subst hx
      exact List.filter_subset' _ (List.mem_of_mem_head? hf)
    | none =>
      simp only [hf]
      exact List.take_subset _ _

theorem sidebarPrimary_subset (sorted : List LayoutParticipant) :
    sidebarPrimary sorted ⊆ sorted := by
  unfold sidebarPrimary
  split_ifs with h1 h2
  · exact List.filter_subset' _
  · exact List.filter_subset' _
  · exact List.take_subset _ _

theorem secondaryOf_subset (f : Bool) (sorted primary : List LayoutParticipant) :
    secondaryOf f sorted primary ⊆ sorted := by
  unfold secondaryOf
  split_ifs
  · intro x hx
    exact List.filter_subset' _ (List.filter_subset' _ hx)
  · exact List.filter_subset' _

theorem secondaryOf_disjoint (f : Bool) (sorted primary : List LayoutParticipant)
    {p q : LayoutParticipant} (hp : p ∈ primary) (hq : q ∈ secondaryOf f sorted primary) :
    p.streamKey ≠ q.streamKey := by
  have hq' : q ∈ sorted.filter
      (fun r => !((primary.map (·.streamKey)).contains r.streamKey)) := by
    unfold secondaryOf at hq
    split_ifs at hq
    · exact List.filter_subset' _ hq
    · exact hq
  have hcond := (List.mem_filter.mp hq').2
  intro hkey
  have hpk : q.streamKey ∈ primary.map (·.streamKey) :=
    hkey ▸ List.mem_map_of_mem (·.streamKey) hp
  simp [hpk] at hcond

theorem splitForMode_fst_subset (mode : ResolvedMode) (prefs : LayoutPreferences)
    (sorted : List LayoutParticipant) (ak : Option String) :
    (splitForMode mode prefs sorted ak).1 ⊆ sorted := by
  cases mode with
  | tiled =>
    unfold splitForMode
    intro x hx
    have hx' := List.take_subset _ _ hx
    split_ifs at hx' with h
    · exact List.filter_subset' _ hx'
    · exact hx'
  | spotlight => exact spotlightPrimary_subset sorted ak
  | sidebar => exact sidebarPrimary_subset sorted

theorem splitForMode_snd_subset (mode : ResolvedMode) (prefs : LayoutPreferences)
    (sorted : List LayoutParticipant) (ak : Option String) :
    (splitForMode mode prefs sorted ak).2 ⊆ sorted := by
  cases mode with
  | tiled => intro x hx; cases hx
  | spotlight => exact secondaryOf_subset _ sorted _
  | sidebar => exact secondaryOf_subset _ sorted _

theorem resolveLayout_effectiveMode (prefs : LayoutPreferences)
    (parts : List LayoutParticipant) (ak : Option String) :
    (resolveLayout prefs parts ak).effectiveMode = effectiveModeOf prefs parts ak := rfl

theorem resolveLayout_primary (prefs : LayoutPreferences)
    (parts : List LayoutParticipant) (ak : Option String) :
    (resolveLayout prefs parts ak).primary =
      (splitForMode (effectiveModeOf prefs parts ak) prefs
        (sortParticipants ak (filterHidden prefs parts)) ak).1 := rfl

theorem resolveLayout_secondary (prefs : LayoutPreferences)
    (parts : List LayoutParticipant) (ak : Option String) :
    (resolveLayout prefs parts ak).secondary =
      (splitForMode (effectiveModeOf prefs parts ak) prefs
        (sortParticipants ak (filterHidden prefs parts)) ak).2 := rfl

/-! ## Concrete participants for counterexamples and witnesses -/

/-- The local participant used in concrete scenarios. -/
def pAlice : LayoutParticipant :=
  ⟨"local", "local", "Alice", some ⟨[⟨true, true⟩]⟩, false, true, false, false, 0⟩

/-- A remote participant with a live video track. -/
def pBob : LayoutParticipant :=
  ⟨"u2", "u2", "Bob", some ⟨[⟨true, true⟩]⟩, false, false, false, false, 0⟩

/-- A remote participant with no stream. -/
def pCarol : LayoutParticipant :=
  ⟨"u3", "u3", "Carol", none, false, false, false, false, 0⟩

/-- Auto-mode preferences with hide-non-video enabled. -/
def c4Prefs : LayoutPreferences := ⟨.auto, 16, .inGridCropped, true, []⟩

/-- Three participants, one of which has no video. -/
def c4Parts : List LayoutParticipant := [pAlice, pBob, pCarol]

/-- Explicit spotlight preferences with no filtering and no pins. -/
def c6Prefs : LayoutPreferences := ⟨.spotlight, 16, .inGridCropped, false, []⟩

/-- Two participants: the local one and one remote. -/
def c6Parts : List LayoutParticipant := [pAlice, pBob]

/-- Explicit tiled preferences. -/
def cTiledPrefs : LayoutPreferences := ⟨.tiled, 16, .inGridCropped, false, []⟩

/-- Six pinned keys, at the pin cap. -/
def c5Prefs6 : LayoutPreferences :=
  ⟨.auto, 16, .inGridCropped, false, ["A", "B", "C", "D", "E", "F"]⟩

/-! ## Claim theorems: layout -/

/-- C10: in every resolved layout the primary and secondary regions are
disjoint by streamKey, every member of either region comes from the
participant list after the hide-non-video filter, and in tiled mode the
secondary region is empty while the primary region holds at most
`tiledMaxTiles` entries. -/
theorem layout_regions_invariants (prefs : LayoutPreferences)
    (parts : List LayoutParticipant) (ak : Option String) :
    (∀ p ∈ (resolveLayout prefs parts ak).primary,
      ∀ q ∈ (resolveLayout prefs parts ak).secondary, p.streamKey ≠ q.streamKey) ∧
    (∀ p ∈ (resolveLayout prefs parts ak).primary, p ∈ filterHidden prefs parts) ∧
    (∀ q ∈ (resolveLayout prefs parts ak).secondary, q ∈ filterHidden prefs parts) ∧
    ((resolveLayout prefs parts ak).effectiveMode = ResolvedMode.tiled →
      (resolveLayout prefs parts ak).secondary = [] ∧
      (resolveLayout prefs parts ak).primary.length ≤ prefs.tiledMaxTiles) := by
  refine ⟨?_, ?_, ?_, ?_⟩
  · intro p hp q hq
    rw [resolveLayout_primary] at hp
    rw [resolveLayout_secondary] at hq
    cases hm : effectiveModeOf prefs parts ak with
    | tiled =>
      rw [hm] at hq
      simp only [splitForMode] at hq
      cases hq
    | spotlight =>
      rw [hm] at hp hq
      simp only [splitForMode] at hp hq
      exact secondaryOf_disjoint _ _ _ hp hq
    | sidebar =>
      rw [hm] at hp hq
      simp only [splitForMode] at hp hq
      exact secondaryOf_disjoint _ _ _ hp hq
  · intro p hp
    rw [resolveLayout_primary] at hp
    exact mem_sortParticipants.mp (splitForMode_fst_subset _ _ _ _ hp)
  · intro q hq
    rw [resolveLayout_secondary] at hq
    exact mem_sortParticipants.mp (splitForMode_snd_subset _ _ _ _ hq)
  · intro ht
    rw [resolveLayout_effectiveMode] at ht
    constructor
    · rw [resolveLayout_secondary, ht]
      simp [splitForMode]
    · rw [resolveLayout_primary, ht]
      simp only [splitForMode]
      rw [List.length_take]
      exact min_le_left _ _

/-- C10 witness: the invariants instantiated at concrete inputs — the
sole remote participant of a two-person spotlight call is drawn from the
filtered list, and a tiled layout has no secondary region. -/
theorem layout_regions_invariants_witness :
    pBob ∈ filterHidden c6Prefs c6Parts ∧
    (resolveLayout cTiledPrefs c6Parts none).secondary = [] := by
  constructor
  · exact (layout_regions_invariants c6Prefs c6Parts none).2.1 pBob (by decide)
  · exact ((layout_regions_invariants cTiledPrefs c6Parts none).2.2.2 (by decide)).1

/-- C4 counterexample: with `auto` mode, three total participants, none
pinned or screen-sharing, and hide-non-video filtering one participant
out, the code resolves `spotlight` — not the `tiled` the claim derives
from the total participant count being 3. -/
theorem effectiveMode_totalCount_refuted :
    c4Prefs.mode = LayoutMode.auto ∧
    c4Parts.length = 3 ∧
    c4Parts.all (fun p => !p.isScreenShare && !p.isPinned) = true ∧
    (resolveLayout c4Prefs c4Parts none).effectiveMode ≠ ResolvedMode.tiled := by
  decide

/-- C4 amended: an explicit mode is used as-is; under `auto`, any screen
share in the full list gives `sidebar`, else any pin gives `spotlight`,
else the mode is `spotlight` when the participant count AFTER the
hide-non-video filter is at most 2, and `tiled` otherwise. -/
theorem effectiveMode_resolution (prefs : LayoutPreferences)
    (parts : List LayoutParticipant) (ak : Option String) :
    ((prefs.mode = LayoutMode.tiled →
      (resolveLayout prefs parts ak).effectiveMode = ResolvedMode.tiled) ∧
     (prefs.mode = LayoutMode.spotlight →
      (resolveLayout prefs parts ak).effectiveMode = ResolvedMode.spotlight) ∧
     (prefs.mode = LayoutMode.sidebar →
      (resolveLayout prefs parts ak).effectiveMode = ResolvedMode.sidebar)) ∧
    (prefs.mode = LayoutMode.auto →
      ((∃ p ∈ parts, p.isScreenShare = true) →
        (resolveLayout prefs parts ak).effectiveMode = ResolvedMode.sidebar) ∧
      ((¬ ∃ p ∈ parts, p.isScreenShare = true) → (∃ p ∈ parts, p.isPinned = true) →
        (resolveLayout prefs parts ak).effectiveMode = ResolvedMode.spotlight) ∧
      ((¬ ∃ p ∈ parts, p.isScreenShare = true) → (¬ ∃ p ∈ parts, p.isPinned = true) →
        (filterHidden prefs parts).length ≤ 2 →
        (resolveLayout prefs parts ak).effectiveMode = ResolvedMode.spotlight) ∧
      ((¬ ∃ p ∈ parts, p.isScreenShare = true) → (¬ ∃ p ∈ parts, p.isPinned = true) →
        2 < (filterHidden prefs parts).length →
        (resolveLayout prefs parts ak).effectiveMode = ResolvedMode.tiled)) := by
  constructor
  · refine ⟨?_, ?_, ?_⟩ <;> intro hm <;>
      rw [resolveLayout_effectiveMode] <;> simp [effectiveModeOf, hm]
  · intro hm
    refine ⟨?_, ?_, ?_, ?_⟩
    · intro hex
      have hb : parts.any (·.isScreenShare) = true := by
        simp only [List.any_eq_true]
        obtain ⟨p, hp, hps⟩ := hex
        exact ⟨p, hp, by simp [hps]⟩
      rw [resolveLayout_effectiveMode]
      simp [effectiveModeOf, hm, hb]
    · intro hnex hexpin
      have hb : parts.any (·.isScreenShare) = false := by
        cases hball : parts.any (·.isScreenShare) with
        | false => rfl
        | true =>
          exfalso
          apply hnex
          obtain ⟨p, hp, hps⟩ := List.any_eq_true.mp hball
          exact ⟨p, hp, by simpa using hps⟩
      have hpin : (parts.filter (·.isPinned)).length > 0 := by
        obtain ⟨p, hp, hpp⟩ := hexpin
        have hmemf : p ∈ parts.filter (·.isPinned) :=
          List.mem_filter.mpr ⟨hp, by simp [hpp]⟩
        exact List.length_pos.mpr (List.ne_nil_of_mem hmemf)
      rw [resolveLayout_effectiveMode]
      simp [effectiveModeOf, hm, hb, hpin]
    · intro hnex hnpin hlen
      have hb : parts.any (·.isScreenShare) = false := by
        cases hball : parts.any (·.isScreenShare) with
        | false => rfl
        | true =>
          exfalso
          apply hnex
          obtain ⟨p, hp, hps⟩ := List.any_eq_true.mp hball
          exact ⟨p, hp, by simpa using hps⟩
      have hpin0 : ¬ (parts.filter (·.isPinned)).length > 0 := by
        intro hpos
        obtain ⟨p, hp⟩ := List.exists_mem_of_length_pos hpos
        have hsplit := List.mem_filter.mp hp
        exact hnpin ⟨p, hsplit.1, by simpa using hsplit.2⟩
      have hsorted : (sortParticipants ak (filterHidden prefs parts)).length ≤ 2 := by
        rw [length_sortParticipants]
        exact hlen
      rw [resolveLayout_effectiveMode]
      simp [effectiveModeOf, hm, hb, hpin0, hsorted]
    · intro hnex hnpin hlen
      have hb : parts.any (·.isScreenShare) = false := by
        cases hball : parts.any (·.isScreenShare) with
        | false => rfl
        | true =>
          exfalso
          apply hnex
          obtain ⟨p, hp, hps⟩ := List.any_eq_true.mp hball
          exact ⟨p, hp, by simpa using hps⟩
      have hpin0 : ¬ (parts.filter (·.isPinned)).length > 0 := by
        intro hpos
        obtain ⟨p, hp⟩ := List.exists_mem_of_length_pos hpos
        have hsplit := List.mem_filter.mp hp
        exact hnpin ⟨p, hsplit.1, by simpa using hsplit.2⟩
      have hsorted : ¬ (sortParticipants ak (filterHidden prefs parts)).length ≤ 2 := by
        rw [length_sortParticipants]
        omega
      rw [resolveLayout_effectiveMode]
      simp [effectiveModeOf, hm, hb, hpin0, hsorted]

/-- C4 witness: amended resolution instantiated — explicit spotlight
mode is used as-is, and the filtered-count rule fires on the concrete
three-participant list whose filtered length is 2. -/
theorem effectiveMode_resolution_witness :
    (resolveLayout c6Prefs c6Parts none).effectiveMode = ResolvedMode.spotlight ∧
    (resolveLayout c4Prefs c4Parts none).effectiveMode = ResolvedMode.spotlight := by
  constructor
  · exact (effectiveMode_resolution c6Prefs c6Parts none).1.2.1 rfl
  · exact ((effectiveMode_resolution c4Prefs c4Parts none).2 rfl).2.2.1
      (by decide) (by decide) (by decide)

/-- C5: at the cap of 6 pins, toggling a not-yet-pinned key fails and
leaves the preferences entirely unchanged; toggling a pinned key always
succeeds and shrinks the pinned list by exactly one while leaving every
other preference field unchanged; and the pinned list never grows beyond
6 entries. -/
theorem togglePin_spec (prefs : LayoutPreferences) (k : String) :
    (prefs.pinnedStreamKeys.length = 6 → k ∉ prefs.pinnedStreamKeys →
      togglePin prefs k = (false, prefs)) ∧
    (k ∈ prefs.pinnedStreamKeys →
      (togglePin prefs k).1 = true ∧
      (togglePin prefs k).2.pinnedStreamKeys.length + 1 = prefs.pinnedStreamKeys.length ∧
      (togglePin prefs k).2.mode = prefs.mode ∧
      (togglePin prefs k).2.tiledMaxTiles = prefs.tiledMaxTiles ∧
      (togglePin prefs k).2.selfViewMode = prefs.selfViewMode ∧
      (togglePin prefs k).2.hideNonVideo = prefs.hideNonVideo) ∧
    (prefs.pinnedStreamKeys.length ≤ 6 →
      (togglePin prefs k).2.pinnedStreamKeys.length ≤ 6) := by
  refine ⟨?_, ?_, ?_⟩
  · intro hlen hnot
    unfold togglePin
    rw [if_neg hnot, if_pos]
    unfold MAX_PINS
    omega
  · intro hmem
    unfold togglePin
    rw [if_pos hmem]
    refine ⟨rfl, ?_, rfl, rfl, rfl, rfl⟩
    simp only []
    rw [List.length_erase_of_mem hmem]
    exact Nat.succ_pred_eq_of_pos (List.length_pos.mpr (List.ne_nil_of_mem hmem))
  · intro hle
    unfold togglePin
    by_cases hmem : k ∈ prefs.pinnedStreamKeys
    · rw [if_pos hmem]
      simp only []
      rw [List.length_erase_of_mem hmem]
      omega
    · rw [if_neg hmem]
      by_cases hcap : prefs.pinnedStreamKeys.length ≥ MAX_PINS
      · rw [if_pos hcap]
        exact hle
      · rw [if_neg hcap]
        simp only [List.length_append, List.length_cons, List.length_nil]
        unfold MAX_PINS at hcap
        omega

/-- C5 witness: the cap and the unpin behaviour at a concrete six-pin
preference state. -/
theorem togglePin_spec_witness :
    togglePin c5Prefs6 "G" = (false, c5Prefs6) ∧
    (togglePin c5Prefs6 "A").1 = true ∧
    (togglePin c5Prefs6 "A").2.pinnedStreamKeys.length + 1 =
      c5Prefs6.pinnedStreamKeys.length ∧
    (togglePin c5Prefs6 "A").2.pinnedStreamKeys.length ≤ 6 := by
  refine ⟨(togglePin_spec c5Prefs6 "G").1 (by decide) (by decide), ?_, ?_, ?_⟩
  · exact ((togglePin_spec c5Prefs6 "A").2.1 (by decide)).1
  · exact ((togglePin_spec c5Prefs6 "A").2.1 (by decide)).2.1
  · exact (togglePin_spec c5Prefs6 "A").2.2 (by decide)

theorem contains_eq_false_iff (l : List String) (k : String) :
    (l.contains k = false) ↔ k ∉ l := by
  constructor
  · intro h hmem
    have hc : l.contains k = true := by simpa using hmem
    rw [h] at hc
    exact Bool.false_ne_true hc
  · intro h
    cases hc : l.contains k with
    | false => rfl
    | true => exact absurd (by simpa using hc) h

/-- C6 counterexample: in explicit spotlight mode with no pins and the
active-speaker key set to a key absent from the participant list, the
primary region is the first sorted participant (here the local user),
not the active speaker and not the first non-local participant. -/
theorem spotlight_speaker_refuted :
    (resolveLayout c6Prefs c6Parts (some "gone")).effectiveMode = ResolvedMode.spotlight ∧
    ((sortParticipants (some "gone") (filterHidden c6Prefs c6Parts)).filter (·.isPinned)) = [] ∧
    jsTruthy (some "gone") = true ∧
    (∀ p ∈ c6Parts, p.streamKey ≠ "gone") ∧
    (∀ p ∈ (resolveLayout c6Prefs c6Parts (some "gone")).primary, p.streamKey ≠ "gone") ∧
    (resolveLayout c6Prefs c6Parts (some "gone")).primary.map (·.streamKey) = ["local"] := by
  decide

/-- C6 amended: in spotlight mode the primary region is the pinned set
when non-empty; else, when the active-speaker key is set AND a
participant with that key survives the filter, the primary is the first
such participant, while an absent key falls back to the first sorted
participant; with no key the primary is the first non-local participant
when one exists, else the first participant; the secondary region is
exactly the sorted participants whose key is not in the primary, with
the local participant excluded when the self view floats. -/
theorem spotlight_regions (prefs : LayoutPreferences) (parts : List LayoutParticipant)
    (ak : Option String)
    (heff : (resolveLayout prefs parts ak).effectiveMode = ResolvedMode.spotlight) :
    ((sortParticipants ak (filterHidden prefs parts)).filter (·.isPinned) ≠ [] →
      (resolveLayout prefs parts ak).primary =
        (sortParticipants ak (filterHidden prefs parts)).filter (·.isPinned)) ∧
    ((sortParticipants ak (filterHidden prefs parts)).filter (·.isPinned) = [] →
      jsTruthy ak = true →
      ((∃ p ∈ sortParticipants ak (filterHidden prefs parts), (some p.streamKey == ak) = true) →
        ∃ sp, sp ∈ sortParticipants ak (filterHidden prefs parts) ∧
          (some sp.streamKey == ak) = true ∧
          (resolveLayout prefs parts ak).primary = [sp]) ∧
      ((∀ p ∈ sortParticipants ak (filterHidden prefs parts), (some p.streamKey == ak) = false) →
        (resolveLayout prefs parts ak).primary =
          (sortParticipants ak (filterHidden prefs parts)).take 1)) ∧
    ((sortParticipants ak (filterHidden prefs parts)).filter (·.isPinned) = [] →
      jsTruthy ak = false →
      (resolveLayout prefs parts ak).primary =
        (match ((sortParticipants ak (filterHidden prefs parts)).filter (fun p => !p.isLocal)).head? with
          | some nl => [nl]
          | none => (sortParticipants ak (filterHidden prefs parts)).take 1)) ∧
    (∀ q, q ∈ (resolveLayout prefs parts ak).secondary ↔
      (q ∈ sortParticipants ak (filterHidden prefs parts) ∧
        q.streamKey ∉ (resolveLayout prefs parts ak).primary.map (·.streamKey) ∧
        ((prefs.selfViewMode == SelfViewMode.floatingUncropped) = true → q.isLocal = false))) := by
  rw [resolveLayout_effectiveMode] at heff
  have hpri : (resolveLayout prefs parts ak).primary =
      spotlightPrimary (sortParticipants ak (filterHidden prefs parts)) ak := by
    rw [resolveLayout_primary, heff]
    simp [splitForMode]
  have hsec : (resolveLayout prefs parts ak).secondary =
      secondaryOf (prefs.selfViewMode == SelfViewMode.floatingUncropped)
        (sortParticipants ak (filterHidden prefs parts))
        (spotlightPrimary (sortParticipants ak (filterHidden prefs parts)) ak) := by
    rw [resolveLayout_secondary, heff]
    simp [splitForMode]
  refine ⟨?_, ?_, ?_, ?_⟩
  · intro hne
    rw [hpri]
    unfold spotlightPrimary
    rw [if_pos (List.length_pos.mpr hne)]
  · intro hEmpty htruthy
    constructor
    · intro hex
      have hsome : ((sortParticipants ak (filterHidden prefs parts)).find?
          (fun p => some p.streamKey == ak)).isSome := by
        rw [List.find?_isSome]
        obtain ⟨p, hp, hb⟩ := hex
        exact ⟨p, hp, hb⟩
      obtain ⟨sp, hsp⟩ := Option.isSome_iff_exists.mp hsome
      have hps := List.find?_some hsp
      refine ⟨sp, List.mem_of_find?_eq_some hsp, by simpa using hps, ?_⟩
      rw [hpri]
      unfold spotlightPrimary
      rw [if_neg (by simp [hEmpty]), if_pos htruthy]
      simp only [hsp]
    · intro hall
      have hnone : (sortParticipants ak (filterHidden prefs parts)).find?
          (fun p => some p.streamKey == ak) = none := by
        rw [List.find?_eq_none]
        intro p hp
        have := hall p hp
        simp only [this]
        exact Bool.false_ne_true
      rw [hpri]
      unfold spotlightPrimary
      rw [if_neg (by simp [hEmpty]), if_pos htruthy]
      simp only [hnone]
  · intro hEmpty hfalse
    rw [hpri]
    unfold spotlightPrimary
    rw [if_neg (by simp [hEmpty]), if_neg (by simp [hfalse])]
  · intro q
    rw [hsec, hpri]
    unfold secondaryOf
    split_ifs with hf
    · simp only [List.mem_filter, Bool.not_eq_true', hf]
      constructor
      · rintro ⟨⟨hq, hcont⟩, hloc⟩
        exact ⟨hq, (contains_eq_false_iff _ _).mp hcont, fun _ => hloc⟩
      · rintro ⟨hq, hnmem, hloc⟩
        exact ⟨⟨hq, (contains_eq_false_iff _ _).mpr hnmem⟩, hloc trivial⟩
    · simp only [List.mem_filter, Bool.not_eq_true', hf]
      constructor
      · rintro ⟨hq, hcont⟩
        exact ⟨hq, (contains_eq_false_iff _ _).mp hcont,
          fun hcontra => absurd hcontra Bool.false_ne_true⟩
      · rintro ⟨hq, hnmem, _⟩
        exact ⟨hq, (contains_eq_false_iff _ _).mpr hnmem⟩

/-- C6 witness: the amended spotlight rules applied to the concrete
two-person call with no speaker key — the primary is the first non-local
participant. -/
theorem spotlight_regions_witness :
    (resolveLayout c6Prefs c6Parts none).primary =
      (match ((sortParticipants none (filterHidden c6Prefs c6Parts)).filter
          (fun p => !p.isLocal)).head? with
        | some nl => [nl]
        | none => (sortParticipants none (filterHidden c6Prefs c6Parts)).take 1) :=
  (spotlight_regions c6Prefs c6Parts none (by decide)).2.2.1 (by decide) (by decide)

/-! ## Active-speaker monitor (`useActiveSpeaker.ts`) -/

/-- The 0.08 `SPEAK_THRESHOLD` of the source, in fixed-point units of
1/10000 of full scale (audio levels are `Nat` in these units). -/
def SPEAK_THRESHOLD : Nat := 800

/-- Constant `HOLD_MS` from the source. -/
def HOLD_MS : Nat := 1500

/-- Constant `POLL_MS` from the source. -/
def POLL_MS : Nat := 200

/-- The speaker-tracking state of the monitor: the `lastSpeakerKey` and
`lastSpeakerTime` module variables and the exposed `activeSpeakerKey`. -/
structure SpeakerState where
  lastSpeakerKey : Option String
  lastSpeakerTime : Nat
  activeSpeakerKey : Option String
deriving DecidableEq, Repr

/-- One step of the max scan of the `poll` loop: the running maximum is
replaced when a level strictly exceeds both it and the threshold. -/
def loudStep (acc : Option String × Nat) (kv : String × Nat) :
    Option String × Nat :=
  if kv.2 > acc.2 ∧ kv.2 > SPEAK_THRESHOLD then (some kv.1, kv.2) else acc

/-- The `maxKey` value after the `poll` loop scanned the analyser levels in
iteration order. -/
def pickLoudest (levels : List (String × Nat)) : Option String :=
  (levels.foldl loudStep ((none : Option String), 0)).1

/-- One `poll` tick over (clock, per-analyser levels): a candidate above
threshold becomes the reported speaker immediately; otherwise a held
speaker is dropped only once the silence exceeds `HOLD_MS`. -/
def poll (s : SpeakerState) (now : Nat) (levels : List (String × Nat)) :
    SpeakerState :=
  match pickLoudest levels with
  | some k => ⟨some k, now, some k⟩
  | none =>
    match s.lastSpeakerKey with
    | some _ =>
      if now - s.lastSpeakerTime > HOLD_MS then ⟨none, s.lastSpeakerTime, none⟩ else s
    | none => s

/-- A sequence of poll ticks folded over the state. -/
def pollSeq (s : SpeakerState) (ticks : List (Nat × List (String × Nat))) :
    SpeakerState :=
  ticks.foldl (fun st t => poll st t.1 t.2) s

/-- One loud tick at time 0 followed by sub-threshold ticks every 200 ms
up to 1.0 s of silence. -/
def ticksSilent1000 : List (Nat × List (String × Nat)) :=
  [(0, [("a", 5000)]), (200, [("a", 200)]), (400, [("a", 200)]), (600, [("a", 200)]),
   (800, [("a", 200)]), (1000, [("a", 200)])]

/-- The same scenario continued with sub-threshold ticks up to 1.6 s. -/
def ticksSilent1600 : List (Nat × List (String × Nat)) :=
  ticksSilent1000 ++ [(1200, [("a", 200)]), (1400, [("a", 200)]), (1600, [("a", 200)])]

theorem loudScan_aux1 (k : String) (v : Nat) :
    ∀ (l : List (String × Nat)) (acc : Option String × Nat),
      (∀ p ∈ l, p.1 = k ∨ p.2 < v) → (acc.2 < v ∨ acc.1 = some k) →
      ((l.foldl loudStep acc).2 < v ∨ (l.foldl loudStep acc).1 = some k) := by
  intro l
  induction l with
  | nil => intro acc _ hacc; simpa using hacc
  | cons p ps ih =>
    intro acc hall hacc
    rw [List.foldl_cons]
    apply ih
    · intro q hq
      exact hall q (List.mem_cons_of_mem _ hq)
    · unfold loudStep
      by_cases hup : p.2 > acc.2 ∧ p.2 > SPEAK_THRESHOLD
      · rw [if_pos hup]
        rcases hall p (List.mem_cons_self p ps) with hk | hlt
        · right
          simp [hk]
        · left
          simpa using hlt
      · rw [if_neg hup]
        exact hacc

theorem loudScan_aux2 (k : String) (v : Nat) :
    ∀ (l : List (String × Nat)) (acc : Option String × Nat),
      (∀ p ∈ l, p.1 = k ∨ p.2 < v) → acc.1 = some k → v ≤ acc.2 →
      ((l.foldl loudStep acc).1 = some k ∧ v ≤ (l.foldl loudStep acc).2) := by
  intro l
  induction l with
  | nil => intro acc _ h1 h2; exact ⟨h1, h2⟩
  | cons p ps ih =>
    intro acc hall h1 h2
    rw [List.foldl_cons]
    have hstep : (loudStep acc p).1 = some k ∧ v ≤ (loudStep acc p).2 := by
      unfold loudStep
      by_cases hup : p.2 > acc.2 ∧ p.2 > SPEAK_THRESHOLD
      · rcases hall p (List.mem_cons_self p ps) with hk | hlt
        · rw [if_pos hup]
          refine ⟨by simp [hk], ?_⟩
          have hud := hup.1
          show v ≤ p.2
          omega
        · exact absurd hup.1 (by omega)
      · rw [if_neg hup]
        exact ⟨h1, h2⟩
    exact ih (loudStep acc p) (fun q hq => hall q (List.mem_cons_of_mem _ hq)) hstep.1 hstep.2

theorem pickLoudest_eq_some {levels : List (String × Nat)} {k : String}
    {v : Nat} (hmem : (k, v) ∈ levels) (hv : v > SPEAK_THRESHOLD)
    (hmax : ∀ p ∈ levels, p.1 = k ∨ p.2 < v) :
    pickLoudest levels = some k := by
  obtain ⟨l1, l2, rfl⟩ := List.append_of_mem hmem
  unfold pickLoudest
  rw [List.foldl_append, List.foldl_cons]
  have h1 := loudScan_aux1 k v l1 ((none : Option String), 0)
    (fun p hp => hmax p (List.mem_append_left _ hp))
    (Or.inl (by unfold SPEAK_THRESHOLD at hv; omega))
  set acc1 := l1.foldl loudStep ((none : Option String), 0) with hacc1
  have hstep : (loudStep acc1 (k, v)).1 = some k ∧ v ≤ (loudStep acc1 (k, v)).2 := by
    unfold loudStep
    rcases h1 with hlt | hk
    · rw [if_pos ⟨hlt, hv⟩]
      exact ⟨rfl, le_refl v⟩
    · by_cases hup : v > acc1.2 ∧ v > SPEAK_THRESHOLD
      · rw [if_pos hup]
        exact ⟨rfl, le_refl v⟩
      · rw [if_neg hup]
        refine ⟨hk, ?_⟩
        by_contra hcon
        push_neg at hcon
        exact hup ⟨hcon, hv⟩
  exact (loudScan_aux2 k v l2 (loudStep acc1 (k, v))
    (fun p hp => hmax p (List.mem_append_right _ (List.mem_cons_of_mem _ hp)))
    hstep.1 hstep.2).1

/-- C7: hold-time debounce of the active-speaker monitor: with no
candidate above threshold, a held speaker stays reported while the
silence is within the hold window; a tick with a strictly loudest
candidate above threshold reports that candidate immediately, preempting
any held speaker; concretely, a speaker loud for one tick stays reported
through 1.0 s of sub-threshold ticks, and after 1.6 s of sub-threshold
ticks no speaker is reported. -/
theorem activeSpeaker_hold :
    (∀ (s : SpeakerState) (now : Nat) (levels : List (String × Nat)) (k : String),
      pickLoudest levels = none → s.lastSpeakerKey = some k →
      s.activeSpeakerKey = some k → now - s.lastSpeakerTime ≤ HOLD_MS →
      (poll s now levels).activeSpeakerKey = some k) ∧
    (∀ (s : SpeakerState) (now : Nat) (levels : List (String × Nat))
        (k : String) (v : Nat),
      (k, v) ∈ levels → v > SPEAK_THRESHOLD → (∀ p ∈ levels, p.1 = k ∨ p.2 < v) →
      (poll s now levels).activeSpeakerKey = some k) ∧
    (pollSeq ⟨none, 0, none⟩ ticksSilent1000).activeSpeakerKey = some "a" ∧
    (pollSeq ⟨none, 0, none⟩ ticksSilent1600).activeSpeakerKey = none := by
  refine ⟨?_, ?_, by decide, by decide⟩
  · intro s now levels k hnone hlast hact hhold
    unfold poll
    rw [hnone, hlast]
    rw [if_neg (by omega)]
    exact hact
  · intro s now levels k v hmem hv hmax
    unfold poll
    rw [pickLoudest_eq_some hmem hv hmax]

/-- C7 witness: a speaker held through 1.0 s of silence at a concrete
state, and immediate preemption by a strictly louder candidate. -/
theorem activeSpeaker_hold_witness :
    (poll ⟨some "a", 0, some "a"⟩ 1000 [("a", 200)]).activeSpeakerKey = some "a" ∧
    (poll ⟨some "a", 0, some "a"⟩ 200 [("b", 5000), ("a", 2000)]).activeSpeakerKey =
      some "b" := by
  constructor
  · exact activeSpeaker_hold.1 ⟨some "a", 0, some "a"⟩ 1000 [("a", 200)] "a"
      (by decide) rfl rfl (by decide)
  · exact activeSpeaker_hold.2.1 ⟨some "a", 0, some "a"⟩ 200 [("b", 5000), ("a", 2000)]
      "b" 5000 (by decide) (by decide) (by decide)

/-! ## Message-channel one-shot waiters (`stores/ws.ts`) -/

/-- The final disposition of a one-shot waiter. -/
inductive WOutcome
  | resolved (payload : Nat)
  | timedOut
deriving DecidableEq, Repr

/-- An armed `setTimeout` of a waiter: its owner waiter id, the message
type it guards, and its absolute fire time (registration + timeoutMs). -/
structure TimerE where
  wid : Nat
  wtype : String
  fire : Nat
deriving DecidableEq, Repr

/-- A settled waiter: id, settle time, outcome. -/
structure SettledE where
  wid : Nat
  time : Nat
  out : WOutcome
deriving DecidableEq, Repr

/-- The waiter-table state: `pendingWaiters` (message type → waiter id),
the armed timers, and the settled outcomes. -/
structure ChanSim where
  table : List (String × Nat)
  timers : List TimerE
  settled : List SettledE
deriving DecidableEq, Repr

/-- Operation `pendingWaiters.delete(ty)`. -/
def tableDel (ty : String) (t : List (String × Nat)) : List (String × Nat) :=
  t.filter (fun kv => !(kv.1 == ty))

/-- Operation `pendingWaiters.set(ty, wid)` — overwrites any previous entry for
the type. -/
def tableSet (ty : String) (wid : Nat) (t : List (String × Nat)) : List (String × Nat) :=
  (ty, wid) :: tableDel ty t

/-- The timer callback armed by `waitForMessage`: it deletes the table
entry for its type UNCONDITIONALLY — even when that entry now belongs to
a newer waiter — and rejects its own waiter with a timeout error. -/
def fireTimer (s : ChanSim) (w : TimerE) : ChanSim :=
  { table := tableDel w.wtype s.table
    timers := s.timers.filter (fun t => !(t.wid == w.wid))
    settled := s.settled ++ [⟨w.wid, w.fire, .timedOut⟩] }

/-- Whether a timer is due strictly before the cutoff (`none` means the
end of the trace, where every remaining timer is due). -/
def dueBefore (cutoff : Option Nat) (w : TimerE) : Bool :=
  match cutoff with
  | none => true
  | some t => decide (w.fire < t)

/-- The earliest due timer, if any. -/
def earliestDue (timers : List TimerE) (cutoff : Option Nat) : Option TimerE :=
  (timers.filter (dueBefore cutoff)).foldl
    (fun acc w =>
      match acc with
      | none => some w
      | some m => if w.fire < m.fire then some w else some m)
    none

/-- Fire every due timer in fire-time order.  The fuel is the timer
count; each firing removes one timer. -/
def fireDue : Nat → ChanSim → Option Nat → ChanSim
  | 0, s, _ => s
  | fuel + 1, s, cutoff =>
    match earliestDue s.timers cutoff with
    | none => s
    | some w => fireDue fuel (fireTimer s w) cutoff

/-- The observable channel events relevant to the waiter table. -/
inductive ChanEv
  | register (wid : Nat) (wtype : String) (timeoutMs : Nat)
  | message (wtype : String) (payload : Nat)
deriving DecidableEq, Repr

/-- Apply one event to the state with due timers already fired:
`register` arms a fresh timer and overwrites the table entry for its
type (leaving the older waiter timer armed); `message` resolves the
current table entry for its type — deleting the entry and clearing THAT
waiter's timer — or is dropped when no entry exists. -/
def chanApply (s1 : ChanSim) (te : Nat × ChanEv) : ChanSim :=
  match te.2 with
  | .register wid ty timeoutMs =>
    { s1 with
      table := tableSet ty wid s1.table
      timers := s1.timers ++ [⟨wid, ty, te.1 + timeoutMs⟩] }
  | .message ty payload =>
    match s1.table.lookup ty with
    | some wid =>
      { table := tableDel ty s1.table
        timers := s1.timers.filter (fun t => !(t.wid == wid))
        settled := s1.settled ++ [⟨wid, te.1, .resolved payload⟩] }
    | none => s1

/-- Process one timed event: fire the timers due strictly before it,
then apply the event. -/
def chanStep (s : ChanSim) (te : Nat × ChanEv) : ChanSim :=
  chanApply (fireDue s.timers.length s (some te.1)) te

/-- End of trace: fire every remaining timer. -/
def finishChan (s : ChanSim) : ChanSim :=
  fireDue s.timers.length s none

/-- Run a chronologically ordered event trace, then fire the remaining
timers. -/
def runChan (evs : List (Nat × ChanEv)) : ChanSim :=
  finishChan (evs.foldl chanStep ⟨[], [], []⟩)

/-- The settled outcome of a waiter. -/
def outcomeOf (wid : Nat) (s : ChanSim) : Option SettledE :=
  s.settled.find? (fun e => e.wid == wid)

/-- Two `consume` waiters for `media:consumer_created` at the default
10 s timeout, the second overwriting the first, and the response
arriving at 10.05 s — after the first waiter's deadline but well before
the second waiter's own deadline of 10.1 s. -/
def c2Trace : List (Nat × ChanEv) :=
  [(0, .register 1 "media:consumer_created" 10000),
   (100, .register 2 "media:consumer_created" 10000),
   (10050, .message "media:consumer_created" 42)]


theorem fireDue_of_none {fuel : Nat} {s : ChanSim} {c : Option Nat}
    (h : earliestDue s.timers c = none) : fireDue fuel s c = s := by
  cases fuel with
  | zero => rfl
  | succ n =>
    unfold fireDue
    rw [h]

theorem fireDue_step (fuel : Nat) (s : ChanSim) (c : Option Nat) (w : TimerE)
    (h : earliestDue s.timers c = some w) :
    fireDue (fuel + 1) s c = fireDue fuel (fireTimer s w) c := by
  show (match earliestDue s.timers c with
    | none => s
    | some w => fireDue fuel (fireTimer s w) c) = fireDue fuel (fireTimer s w) c
  rw [h]

/-- C2 amended: when a second waiter for the same type is registered
while the first is pending (both at the default 10 s timeout), the first
waiter never resolves and is rejected exactly at its own deadline; the
second waiter resolves with the payload of the next inbound message of
that type ONLY when the message arrives before the FIRST waiter's
deadline — when it arrives later (even before the second waiter's own
deadline), the first waiter's timer has already deleted the shared table
entry, so the second waiter also times out, at its own deadline. -/
theorem waitForMessage_overwrite (T : String) (t1 t2 tm p : Nat)
    (h12 : t1 < t2) (h2live : t2 < t1 + 10000) (h2m : t2 < tm)
    (hne : tm ≠ t1 + 10000) :
    outcomeOf 1 (runChan [(t1, .register 1 T 10000), (t2, .register 2 T 10000),
      (tm, .message T p)]) = some ⟨1, t1 + 10000, .timedOut⟩ ∧
    (tm < t1 + 10000 →
      outcomeOf 2 (runChan [(t1, .register 1 T 10000), (t2, .register 2 T 10000),
        (tm, .message T p)]) = some ⟨2, tm, .resolved p⟩) ∧
    (t1 + 10000 < tm →
      outcomeOf 2 (runChan [(t1, .register 1 T 10000), (t2, .register 2 T 10000),
        (tm, .message T p)]) = some ⟨2, t2 + 10000, .timedOut⟩) := by
  have e1 : chanStep ⟨[], [], []⟩ (t1, ChanEv.register 1 T 10000) =
      ⟨[(T, 1)], [⟨1, T, t1 + 10000⟩], []⟩ := by
    show chanApply (fireDue 0 ⟨[], [], []⟩ (some t1)) (t1, ChanEv.register 1 T 10000) = _
    simp [fireDue, chanApply, tableSet, tableDel]
  have efd2 : fireDue 1 ⟨[(T, 1)], [⟨1, T, t1 + 10000⟩], []⟩ (some t2) =
      ⟨[(T, 1)], [⟨1, T, t1 + 10000⟩], []⟩ := by
    apply fireDue_of_none
    have hd : dueBefore (some t2) ⟨1, T, t1 + 10000⟩ = false := by
      simp [dueBefore]
      omega
    simp [earliestDue, hd]
  have e2 : chanStep ⟨[(T, 1)], [⟨1, T, t1 + 10000⟩], []⟩ (t2, ChanEv.register 2 T 10000) =
      ⟨[(T, 2)], [⟨1, T, t1 + 10000⟩, ⟨2, T, t2 + 10000⟩], []⟩ := by
    show chanApply (fireDue 1 ⟨[(T, 1)], [⟨1, T, t1 + 10000⟩], []⟩ (some t2))
      (t2, ChanEv.register 2 T 10000) = _
    rw [efd2]
    simp [chanApply, tableSet, tableDel]
  rcases Nat.lt_trichotomy tm (t1 + 10000) with hA | heq | hB
  · -- the response arrives before waiter 1's deadline: waiter 2 resolves
    have hd1 : dueBefore (some tm) ⟨1, T, t1 + 10000⟩ = false := by
      simp [dueBefore]
      omega
    have hd2 : dueBefore (some tm) ⟨2, T, t2 + 10000⟩ = false := by
      simp [dueBefore]
      omega
    have efd3 : fireDue 2 ⟨[(T, 2)], [⟨1, T, t1 + 10000⟩, ⟨2, T, t2 + 10000⟩], []⟩
        (some tm) = ⟨[(T, 2)], [⟨1, T, t1 + 10000⟩, ⟨2, T, t2 + 10000⟩], []⟩ := by
      apply fireDue_of_none
      simp [earliestDue, hd1, hd2]
    have e3 : chanStep ⟨[(T, 2)], [⟨1, T, t1 + 10000⟩, ⟨2, T, t2 + 10000⟩], []⟩
        (tm, ChanEv.message T p) =
        ⟨[], [⟨1, T, t1 + 10000⟩], [⟨2, tm, WOutcome.resolved p⟩]⟩ := by
      show chanApply (fireDue 2 ⟨[(T, 2)], [⟨1, T, t1 + 10000⟩, ⟨2, T, t2 + 10000⟩], []⟩
        (some tm)) (tm, ChanEv.message T p) = _
      rw [efd3]
      simp [chanApply, List.lookup, tableDel]
    have efin : finishChan ⟨[], [⟨1, T, t1 + 10000⟩], [⟨2, tm, WOutcome.resolved p⟩]⟩ =
        ⟨[], [], [⟨2, tm, WOutcome.resolved p⟩, ⟨1, t1 + 10000, WOutcome.timedOut⟩]⟩ := by
      show fireDue 1 ⟨[], [⟨1, T, t1 + 10000⟩], [⟨2, tm, WOutcome.resolved p⟩]⟩ none = _
      have hed : earliestDue [⟨1, T, t1 + 10000⟩] none = some ⟨1, T, t1 + 10000⟩ := by
        simp [earliestDue, dueBefore]
      rw [fireDue_step 0 _ _ _ hed]
      simp [fireDue, fireTimer, tableDel]
    have hrun : runChan [(t1, ChanEv.register 1 T 10000), (t2, ChanEv.register 2 T 10000),
        (tm, ChanEv.message T p)] =
        ⟨[], [], [⟨2, tm, WOutcome.resolved p⟩, ⟨1, t1 + 10000, WOutcome.timedOut⟩]⟩ := by
      show finishChan ([(t1, ChanEv.register 1 T 10000), (t2, ChanEv.register 2 T 10000),
        (tm, ChanEv.message T p)].foldl chanStep ⟨[], [], []⟩) = _
      rw [List.foldl_cons, e1, List.foldl_cons, e2, List.foldl_cons, e3, List.foldl_nil,
        efin]
    refine ⟨?_, fun _ => ?_, fun hcontra => absurd hcontra (by omega)⟩
    · rw [hrun]
      simp [outcomeOf, List.find?]
    · rw [hrun]
      simp [outcomeOf, List.find?]
  · exact absurd heq hne
  · -- the response arrives after waiter 1's deadline: both time out
    have hd1 : dueBefore (some tm) ⟨1, T, t1 + 10000⟩ = true := by
      simp [dueBefore]
      omega
    have hfire1 : fireTimer ⟨[(T, 2)], [⟨1, T, t1 + 10000⟩, ⟨2, T, t2 + 10000⟩], []⟩
        ⟨1, T, t1 + 10000⟩ =
        ⟨[], [⟨2, T, t2 + 10000⟩], [⟨1, t1 + 10000, WOutcome.timedOut⟩]⟩ := by
      simp [fireTimer, tableDel]
    have hno : ¬ (t2 + 10000 < t1 + 10000) := by omega
    have hrun : runChan [(t1, ChanEv.register 1 T 10000), (t2, ChanEv.register 2 T 10000),
        (tm, ChanEv.message T p)] =
        ⟨[], [], [⟨1, t1 + 10000, WOutcome.timedOut⟩, ⟨2, t2 + 10000, WOutcome.timedOut⟩]⟩ := by
      by_cases hc : t2 + 10000 < tm
      · -- waiter 2's timer also fires before the message
        have hd2 : dueBefore (some tm) ⟨2, T, t2 + 10000⟩ = true := by
          simp [dueBefore]
          omega
        have hed : earliestDue [⟨1, T, t1 + 10000⟩, ⟨2, T, t2 + 10000⟩] (some tm) =
            some ⟨1, T, t1 + 10000⟩ := by
          simp [earliestDue, hd1, hd2, hno]
        have hed2 : earliestDue [⟨2, T, t2 + 10000⟩] (some tm) = some ⟨2, T, t2 + 10000⟩ := by
          simp [earliestDue, hd2]
        have hfire2 : fireTimer ⟨[], [⟨2, T, t2 + 10000⟩], [⟨1, t1 + 10000, WOutcome.timedOut⟩]⟩
            ⟨2, T, t2 + 10000⟩ =
            ⟨[], [], [⟨1, t1 + 10000, WOutcome.timedOut⟩,
              ⟨2, t2 + 10000, WOutcome.timedOut⟩]⟩ := by
          simp [fireTimer, tableDel]
        have e3 : chanStep ⟨[(T, 2)], [⟨1, T, t1 + 10000⟩, ⟨2, T, t2 + 10000⟩], []⟩
            (tm, ChanEv.message T p) =
            ⟨[], [], [⟨1, t1 + 10000, WOutcome.timedOut⟩,
              ⟨2, t2 + 10000, WOutcome.timedOut⟩]⟩ := by
          show chanApply (fireDue 2 ⟨[(T, 2)], [⟨1, T, t1 + 10000⟩, ⟨2, T, t2 + 10000⟩], []⟩
            (some tm)) (tm, ChanEv.message T p) = _
          rw [fireDue_step 1 _ _ _ hed, hfire1, fireDue_step 0 _ _ _ hed2, hfire2]
          simp [chanApply, List.lookup, fireDue]
        show finishChan ([(t1, ChanEv.register 1 T 10000), (t2, ChanEv.register 2 T 10000),
          (tm, ChanEv.message T p)].foldl chanStep ⟨[], [], []⟩) = _
        rw [List.foldl_cons, e1, List.foldl_cons, e2, List.foldl_cons, e3, List.foldl_nil]
        rfl
      · -- waiter 2's timer outlives the message, which finds no entry
        have hd2 : dueBefore (some tm) ⟨2, T, t2 + 10000⟩ = false := by
          simp [dueBefore]
          omega
        have hed : earliestDue [⟨1, T, t1 + 10000⟩, ⟨2, T, t2 + 10000⟩] (some tm) =
            some ⟨1, T, t1 + 10000⟩ := by
          simp [earliestDue, hd1, hd2]
        have hfd : fireDue 1 ⟨[], [⟨2, T, t2 + 10000⟩], [⟨1, t1 + 10000, WOutcome.timedOut⟩]⟩
            (some tm) =
            ⟨[], [⟨2, T, t2 + 10000⟩], [⟨1, t1 + 10000, WOutcome.timedOut⟩]⟩ := by
          apply fireDue_of_none
          simp [earliestDue, hd2]
        have e3 : chanStep ⟨[(T, 2)], [⟨1, T, t1 + 10000⟩, ⟨2, T, t2 + 10000⟩], []⟩
            (tm, ChanEv.message T p) =
            ⟨[], [⟨2, T, t2 + 10000⟩], [⟨1, t1 + 10000, WOutcome.timedOut⟩]⟩ := by
          show chanApply (fireDue 2 ⟨[(T, 2)], [⟨1, T, t1 + 10000⟩, ⟨2, T, t2 + 10000⟩], []⟩
            (some tm)) (tm, ChanEv.message T p) = _
          rw [fireDue_step 1 _ _ _ hed, hfire1, hfd]
          simp [chanApply, List.lookup]
        have hed2 : earliestDue [⟨2, T, t2 + 10000⟩] none = some ⟨2, T, t2 + 10000⟩ := by
          simp [earliestDue, dueBefore]
        have efin : finishChan ⟨[], [⟨2, T, t2 + 10000⟩],
            [⟨1, t1 + 10000, WOutcome.timedOut⟩]⟩ =
            ⟨[], [], [⟨1, t1 + 10000, WOutcome.timedOut⟩,
              ⟨2, t2 + 10000, WOutcome.timedOut⟩]⟩ := by
          show fireDue 1 ⟨[], [⟨2, T, t2 + 10000⟩], [⟨1, t1 + 10000, WOutcome.timedOut⟩]⟩
            none = _
          rw [fireDue_step 0 _ _ _ hed2]
          simp [fireDue, fireTimer, tableDel]
        show finishChan ([(t1, ChanEv.register 1 T 10000), (t2, ChanEv.register 2 T 10000),
          (tm, ChanEv.message T p)].foldl chanStep ⟨[], [], []⟩) = _
        rw [List.foldl_cons, e1, List.foldl_cons, e2, List.foldl_cons, e3, List.foldl_nil,
          efin]
    refine ⟨?_, fun hcontra => absurd hcontra (by omega), fun _ => ?_⟩
    · rw [hrun]
      simp [outcomeOf, List.find?]
    · rw [hrun]
      simp [outcomeOf, List.find?]

/-- C2 counterexample: with both waiters at the default 10 s timeout —
waiter 1 registered at 0 ms, waiter 2 at 100 ms — the response arriving
at 10050 ms is before waiter 2's own deadline of 10100 ms, yet waiter 2
never resolves: waiter 1's timer fired at 10000 ms and deleted the table
entry, which at that moment belonged to waiter 2. -/
theorem waitForMessage_secondWaiter_refuted :
    (100 : Nat) + 10000 > 10050 ∧
    outcomeOf 2 (runChan c2Trace) = some ⟨2, 10100, WOutcome.timedOut⟩ ∧
    outcomeOf 1 (runChan c2Trace) = some ⟨1, 10000, WOutcome.timedOut⟩ := by
  decide

/-- C2 witness: the amended behaviour at concrete times — the response
at 5000 ms resolves waiter 2 while waiter 1 still times out at 10000 ms. -/
theorem waitForMessage_overwrite_witness :
    outcomeOf 1 (runChan [(0, .register 1 "media:consumer_created" 10000),
      (100, .register 2 "media:consumer_created" 10000),
      (5000, .message "media:consumer_created" 42)]) =
      some ⟨1, 10000, WOutcome.timedOut⟩ ∧
    outcomeOf 2 (runChan [(0, .register 1 "media:consumer_created" 10000),
      (100, .register 2 "media:consumer_created" 10000),
      (5000, .message "media:consumer_created" 42)]) =
      some ⟨2, 5000, WOutcome.resolved 42⟩ := by
  have h := waitForMessage_overwrite "media:consumer_created" 0 100 5000 42
    (by decide) (by decide) (by decide) (by decide)
  exact ⟨h.1, h.2.1 (by decide)⟩

/-! ## Channel lifecycle: close, reconnect, dispatch (`stores/ws.ts`) -/

/-- Connection status of the ws store. -/
inductive WsStatus
  | disconnected | connecting | connected
deriving DecidableEq, Repr

/-- The store state relevant to close and reconnect: the status, the
waiter table (type → waiter id), the persistent media handlers (type →
handler id), the keepalive interval flag, and the scheduled reconnect
(delay in ms, token). -/
structure WsState where
  status : WsStatus
  pendingWaiters : List (String × Nat)
  mediaHandlers : List (String × Nat)
  pingActive : Bool
  reconnectTimer : Option (Nat × String)
deriving DecidableEq, Repr

/-- Function `cleanup()`: clears the keepalive interval and any scheduled
reconnect — and nothing else: the waiter and handler maps are untouched. -/
def wsCleanup (s : WsState) : WsState :=
  { s with pingActive := false, reconnectTimer := none }

/-- Handler `socket.onclose`: run `cleanup`, mark disconnected, and schedule one
reconnect after a fixed 3000 ms delay carrying the same token. -/
def wsOnClose (tok : String) (s : WsState) : WsState :=
  { wsCleanup s with status := .disconnected, reconnectTimer := some (3000, tok) }

/-- Function `connect(token)` called on a closed socket: the early-return guard
(`readyState <= OPEN`) does not apply to a CLOSED socket, so a fresh
socket is opened.  No map is reset. -/
def wsConnectStart (s : WsState) : WsState :=
  { s with status := .connecting }

/-- Handler `socket.onopen`: connected, keepalive restarted. -/
def wsOnOpen (s : WsState) : WsState :=
  { s with status := .connected, pingActive := true }

/-- The scheduled reconnect timeout fires: `connect` is called with the
stored token. -/
def wsReconnectFire (s : WsState) : WsState :=
  match s.reconnectTimer with
  | some _ => wsConnectStart { s with reconnectTimer := none }
  | none => s

/-- Function `disconnect()` — the only operation that clears the two maps. -/
def wsDisconnect (s : WsState) : WsState :=
  { wsCleanup s with status := .disconnected, pendingWaiters := [], mediaHandlers := [] }

/-- What `handleMessage` did with an inbound message. -/
inductive Dispatch
  | resolvedWaiter (wid : Nat)
  | invokedHandler (hid : Nat)
  | fallthrough
deriving DecidableEq, Repr

/-- Function `handleMessage`: a pending waiter takes priority and is removed; else
a persistent handler is invoked and stays registered; else the message
falls through to the store switch. -/
def wsHandleMessage (s : WsState) (ty : String) : WsState × Dispatch :=
  match s.pendingWaiters.lookup ty with
  | some wid =>
    ({ s with pendingWaiters := tableDel ty s.pendingWaiters }, .resolvedWaiter wid)
  | none =>
    match s.mediaHandlers.lookup ty with
    | some hid => (s, .invokedHandler hid)
    | none => (s, .fallthrough)

/-- A connected state with one pending waiter and one persistent
handler, about to suffer an unexpected close. -/
def c8State : WsState :=
  ⟨.connected, [("media:consumer_created", 3)], [("media:new_producer", 7)], true, none⟩

/-- C8 counterexample: after an unexpected close and the completed
reconnect, the persistent handler registered before the close is STILL
registered, and a message arriving after the reconnect DOES resolve the
waiter registered before the close — `cleanup()` clears only the timers,
so nothing is invalidated across a reconnect. -/
theorem reconnect_invalidation_refuted :
    (wsOnOpen (wsReconnectFire (wsOnClose "tok" c8State))).mediaHandlers.lookup
      "media:new_producer" = some 7 ∧
    (wsHandleMessage (wsOnOpen (wsReconnectFire (wsOnClose "tok" c8State)))
      "media:consumer_created").2 = Dispatch.resolvedWaiter 3 := by
  decide

/-- C8 amended: an unexpected close schedules exactly one reconnect
after a fixed 3000 ms delay reusing the same token, and the pending
waiter table and the persistent handler table are both carried over
unchanged across the close and the completed reconnect (only the
explicit `disconnect()` clears them). -/
theorem reconnect_preserves_tables (s : WsState) (tok : String) :
    (wsOnClose tok s).reconnectTimer = some (3000, tok) ∧
    (wsOnClose tok s).status = WsStatus.disconnected ∧
    (wsOnOpen (wsReconnectFire (wsOnClose tok s))).status = WsStatus.connected ∧
    (wsOnOpen (wsReconnectFire (wsOnClose tok s))).pendingWaiters = s.pendingWaiters ∧
    (wsOnOpen (wsReconnectFire (wsOnClose tok s))).mediaHandlers = s.mediaHandlers ∧
    (wsDisconnect s).pendingWaiters = [] ∧
    (wsDisconnect s).mediaHandlers = [] := by
  exact ⟨rfl, rfl, rfl, rfl, rfl, rfl, rfl⟩


/-! ## Producer-announcement buffering and the serialized consume chain
(`useMediasoup`, second revision: `joinRoom` + `handleNewProducer`) -/

/-- Events seen by the `media:new_producer` handling during a join: an
announcement arriving, or the atomic swap-and-drain that `joinRoom`
performs once both transports exist (handler replacement and the drain
loop run synchronously, so no announcement can interleave). -/
inductive JoinEv (α : Type)
  | announce (a : α)
  | ready
deriving DecidableEq, Repr

/-- Join-time announcement state: whether the real handler is installed,
the `pendingProducers` buffer, and the consume chain (the list of
announcements appended to `consumeChain`, in order). -/
structure JoinState (α : Type) where
  live : Bool
  buffer : List α
  chain : List α
deriving DecidableEq, Repr

/-- One event: while buffering, an announcement is pushed to
`pendingProducers`; when live, `handleNewProducer` appends it to the
chain; `ready` swaps the handler and drains the buffer into the chain in
arrival order. -/
def stepJoin (s : JoinState α) : JoinEv α → JoinState α
  | .announce a =>
    if s.live then { s with chain := s.chain ++ [a] }
    else { s with buffer := s.buffer ++ [a] }
  | .ready => { live := true, buffer := [], chain := s.chain ++ s.buffer }

/-- Run a join-time event sequence from the initial buffering state. -/
def runJoin (evs : List (JoinEv α)) : JoinState α :=
  evs.foldl stepJoin ⟨false, [], []⟩

/-- Trace events of executing the chained `consumeProducer` round trips:
invocation start, the `media:consume` send, the `media:consumer_created`
receipt, and completion. -/
inductive RoundEv (α : Type)
  | start (a : α)
  | sendConsume (a : α)
  | recvCreated (a : α)
  | complete (a : α)
deriving DecidableEq, Repr

/-- Promise-chain execution: `consumeChain = consumeChain.then(...)`
sequences each round trip strictly after the previous one settles, so
the trace is the concatenation of complete round-trip blocks. -/
def execChain : List α → List (RoundEv α)
  | [] => []
  | a :: as => [.start a, .sendConsume a, .recvCreated a, .complete a] ++ execChain as

/-- The invocations of `consumeProducer`, in start order. -/
def startsOf (tr : List (RoundEv α)) : List α :=
  tr.filterMap (fun e => match e with | .start a => some a | _ => none)

/-- Scan of the number of simultaneously open round trips, tracking the
maximum. -/
def maxOpenAux : List (RoundEv α) → Nat → Nat → Nat
  | [], _, m => m
  | e :: r, c, m =>
    match e with
    | .start _ => maxOpenAux r (c + 1) (max m (c + 1))
    | .complete _ => maxOpenAux r (c - 1) m
    | _ => maxOpenAux r c m

/-- The maximum number of simultaneously open round trips in a trace. -/
def maxOpen (tr : List (RoundEv α)) : Nat := maxOpenAux tr 0 0

theorem foldl_announce_buffering (l : List α) (b c : List α) :
    ((l.map JoinEv.announce).foldl stepJoin ⟨false, b, c⟩ : JoinState α) =
      ⟨false, b ++ l, c⟩ := by
  induction l generalizing b with
  | nil => simp
  | cons a as ih =>
    simp only [List.map_cons, List.foldl_cons]
    have hstep : stepJoin (⟨false, b, c⟩ : JoinState α) (JoinEv.announce a) =
        ⟨false, b ++ [a], c⟩ := by
      simp [stepJoin]
    rw [hstep, ih (b ++ [a])]
    simp

theorem foldl_announce_live (l : List α) (b c : List α) :
    ((l.map JoinEv.announce).foldl stepJoin ⟨true, b, c⟩ : JoinState α) =
      ⟨true, b, c ++ l⟩ := by
  induction l generalizing c with
  | nil => simp
  | cons a as ih =>
    simp only [List.map_cons, List.foldl_cons]
    have hstep : stepJoin (⟨true, b, c⟩ : JoinState α) (JoinEv.announce a) =
        ⟨true, b, c ++ [a]⟩ := by
      simp [stepJoin]
    rw [hstep, ih (c ++ [a])]
    simp

theorem startsOf_execChain (l : List α) : startsOf (execChain l) = l := by
  induction l with
  | nil => rfl
  | cons a as ih =>
    simp only [execChain, startsOf, List.filterMap] at ih ⊢
    simp [ih]

theorem maxOpenAux_execChain_le (l : List α) : ∀ m, maxOpenAux (execChain l) 0 m ≤ max m 1 := by
  induction l with
  | nil =>
    intro m
    simp [execChain, maxOpenAux]
  | cons a as ih =>
    intro m
    calc maxOpenAux (execChain (a :: as)) 0 m
        = maxOpenAux (execChain as) 0 (max m 1) := rfl
      _ ≤ max (max m 1) 1 := ih (max m 1)
      _ = max m 1 := by omega

/-- C1: for any announcements arriving before the transports are ready
(buffered) and after (live), the consume chain contains exactly the
announcements, in arrival order — none lost, none duplicated, none
reordered — and its execution trace starts the round trips in that same
order with never more than one round trip open at a time (each
`consume`/`consumer_created` round trip completes before the next
starts). -/
theorem newProducer_buffer_drain {α : Type} (pre post : List α) :
    (runJoin (pre.map JoinEv.announce ++ JoinEv.ready :: post.map JoinEv.announce)).chain
      = pre ++ post ∧
    (runJoin (pre.map JoinEv.announce ++ JoinEv.ready :: post.map JoinEv.announce)).live
      = true ∧
    startsOf (execChain
      (runJoin (pre.map JoinEv.announce ++ JoinEv.ready :: post.map JoinEv.announce)).chain)
      = pre ++ post ∧
    maxOpen (execChain
      (runJoin (pre.map JoinEv.announce ++ JoinEv.ready :: post.map JoinEv.announce)).chain)
      ≤ 1 := by
  have hrun : runJoin (pre.map JoinEv.announce ++ JoinEv.ready :: post.map JoinEv.announce)
      = ⟨true, [], pre ++ post⟩ := by
    unfold runJoin
    rw [List.foldl_append, foldl_announce_buffering pre [] []]
    rw [List.foldl_cons]
    have hready : stepJoin (⟨false, [] ++ pre, []⟩ : JoinState α) JoinEv.ready =
        ⟨true, [], pre⟩ := by
      simp [stepJoin]
    rw [hready, foldl_announce_live post [] pre]
  rw [hrun]
  refine ⟨rfl, rfl, startsOf_execChain _, ?_⟩
  have h := maxOpenAux_execChain_le (pre ++ post) 0
  simpa [maxOpen] using h


/-! ## Remote-stream aggregation (`consumeProducer`, tail of the
function) -/

/-- A consumed track: the underlying track id and its media kind. -/
structure ConsTrack where
  tid : String
  kind : String
deriving DecidableEq, Repr

/-- One entry of the `remoteStreams` map: `{ userId, stream, kind }`,
with the `MediaStream` modelled by its track list. -/
structure RemoteEntry where
  userId : String
  tracks : List ConsTrack
  kind : String
deriving DecidableEq, Repr

/-- Operation `Map.set` on a string-keyed map. -/
def mapSet {β : Type} (k : String) (v : β) (m : List (String × β)) : List (String × β) :=
  (k, v) :: m.filter (fun kv => !(kv.1 == k))

/-- The `remoteStreams` update at the end of `consumeProducer`: the
consumed track is keyed by the announcement's `user_id` alone — a new
`MediaStream` is built from the existing tracks plus the new one — and
the entry's `kind` is overwritten with the consumed kind.  No
screen-specific key is ever produced here. -/
def attachConsumerTrack (m : List (String × RemoteEntry)) (userId : String)
    (track : ConsTrack) (kind : String) : List (String × RemoteEntry) :=
  match m.lookup userId with
  | some e => mapSet userId ⟨userId, e.tracks ++ [track], kind⟩ m
  | none => mapSet userId ⟨userId, [track], kind⟩ m

/-- The camera video track user u1 already contributes. -/
def camTrack : ConsTrack := ⟨"t-cam", "video"⟩

/-- The screen-share video track announced next for the same user. -/
def screenTrack : ConsTrack := ⟨"t-screen", "video"⟩

/-- C3: consuming user u1's screen-share producer while u1's camera
aggregate exists merges the screen track INTO that camera aggregate
under the plain key "u1"; no "u1:screen"-style key is created, so the
camera aggregate ends up containing a screen track — the layout and
active-speaker modules of the same repository test for keys ending in
":screen", which this update never produces. -/
theorem screen_merge_bug :
    attachConsumerTrack [("u1", ⟨"u1", [camTrack], "video"⟩)] "u1" screenTrack "video" =
      [("u1", ⟨"u1", [camTrack, screenTrack], "video"⟩)] ∧
    (attachConsumerTrack [("u1", ⟨"u1", [camTrack], "video"⟩)] "u1" screenTrack
      "video").lookup "u1:screen" = none ∧
    (attachConsumerTrack [("u1", ⟨"u1", [camTrack], "video"⟩)] "u1" screenTrack
      "video").length = 1 := by
  decide

/-! ## Media session teardown (`leaveRoom`) -/

/-- A local production handle (mediasoup `Producer`). -/
structure MSProducer where
  id : String
deriving DecidableEq, Repr

/-- A remote consumption handle (mediasoup `Consumer`). -/
structure MSConsumer where
  id : String
  producerId : String
deriving DecidableEq, Repr

/-- A transport handle. -/
structure MSTransport where
  id : String
deriving DecidableEq, Repr

/-- A local capture track. -/
structure MSTrack where
  id : String
deriving DecidableEq, Repr

/-- The `useMediasoup` composable state that `leaveRoom` touches. -/
structure MediaState where
  producers : List (String × MSProducer)
  consumers : List (String × MSConsumer)
  remoteStreams : List (String × RemoteEntry)
  sendTransport : Option MSTransport
  recvTransport : Option MSTransport
  localStream : Option (List MSTrack)
  deviceLoaded : Bool
  conferenceId : Option String
  isMuted : Bool
  isVideoOn : Bool
  isScreenSharing : Bool
  screenProducerId : Option String
  consumeChain : List String
deriving DecidableEq, Repr

/-- The side effects of `leaveRoom`, in emission order. -/
inductive MediaEffect
  | wsSend (mtype : String)
  | producerClosed (id : String)
  | consumerClosed (id : String)
  | transportClosed (id : String)
  | trackStopped (id : String)
deriving DecidableEq, Repr

/-- Removal of the three persistent media handlers, in source order. -/
def offThreeHandlers (handlers : List (String × Nat)) : List (String × Nat) :=
  tableDel "media:producer_closed"
    (tableDel "media:peer_left" (tableDel "media:new_producer" handlers))

/-- Function `leaveRoom`: send `media:leave` when in a conference, close every
production and consumption and clear both maps, close and null both
transports, stop and null the local capture tracks, clear the remote
streams, reset the device and flags, reset the consume chain, and
deregister the three persistent handlers.  `screenProducerId` is the one
module variable the source does NOT reset. -/
def leaveRoom (s : MediaState) (handlers : List (String × Nat)) :
    MediaState × List (String × Nat) × List MediaEffect :=
  (⟨[], [], [], none, none, none, false, none, false, true, false, s.screenProducerId, []⟩,
   offThreeHandlers handlers,
   (match s.conferenceId with
     | some _ => [MediaEffect.wsSend "media:leave"]
     | none => []) ++
   s.producers.map (fun kv => MediaEffect.producerClosed kv.2.id) ++
   s.consumers.map (fun kv => MediaEffect.consumerClosed kv.2.id) ++
   (match s.sendTransport with
     | some t => [MediaEffect.transportClosed t.id]
     | none => []) ++
   (match s.recvTransport with
     | some t => [MediaEffect.transportClosed t.id]
     | none => []) ++
   (match s.localStream with
     | some ts => ts.map (fun t => MediaEffect.trackStopped t.id)
     | none => []))

theorem lookup_tableDel_self (ty : String) (t : List (String × Nat)) :
    (tableDel ty t).lookup ty = none := by
  induction t with
  | nil => rfl
  | cons kv rest ih =>
    by_cases h : kv.1 = ty
    · simpa [tableDel, List.filter_cons, h] using ih
    · have hbeq : (kv.1 == ty) = false := by
        simp [h]
      have hbeq2 : (ty == kv.1) = false := by
        simp [Ne.symm h]
      simp only [tableDel, List.filter_cons, hbeq, Bool.not_false, if_pos]
      simpa [List.lookup, hbeq2, tableDel] using ih

theorem filter_self_idem (p : α → Bool) (l : List α) :
    (l.filter p).filter p = l.filter p := by
  induction l with
  | nil => rfl
  | cons a as ih =>
    by_cases h : p a <;> simp [List.filter_cons, h, ih]

theorem filter_swap (p q : α → Bool) (l : List α) :
    (l.filter p).filter q = (l.filter q).filter p := by
  induction l with
  | nil => rfl
  | cons a as ih =>
    by_cases hp : p a <;> by_cases hq : q a <;> simp [List.filter_cons, hp, hq, ih]

theorem tableDel_comm (a b : String) (t : List (String × Nat)) :
    tableDel a (tableDel b t) = tableDel b (tableDel a t) :=
  filter_swap _ _ t

theorem tableDel_idem (a : String) (t : List (String × Nat)) :
    tableDel a (tableDel a t) = tableDel a t :=
  filter_self_idem _ t

theorem offThreeHandlers_idem (handlers : List (String × Nat)) :
    offThreeHandlers (offThreeHandlers handlers) = offThreeHandlers handlers := by
  unfold offThreeHandlers tableDel
  rw [List.filter_filter, List.filter_filter, List.filter_filter, List.filter_filter,
    List.filter_filter, List.filter_filter, List.filter_filter]
  apply List.filter_congr
  intro kv _
  cases hA : (kv.1 == "media:new_producer") <;>
    cases hB : (kv.1 == "media:peer_left") <;>
    cases hC : (kv.1 == "media:producer_closed") <;>
    simp [hA, hB, hC]

theorem lookup_tableDel_other (ty ty2 : String) (hne : ty ≠ ty2)
    (t : List (String × Nat)) : (tableDel ty2 t).lookup ty = t.lookup ty := by
  induction t with
  | nil => rfl
  | cons kv rest ih =>
    by_cases h : kv.1 = ty2
    · have hbeq : (kv.1 == ty2) = true := by simp [h]
      have hty : (ty == kv.1) = false := by simp [h, hne]
      have hdel : tableDel ty2 (kv :: rest) = tableDel ty2 rest := by
        simp [tableDel, List.filter_cons, hbeq]
      rw [hdel, ih]
      simp [List.lookup, hty]
    · have hbeq : (kv.1 == ty2) = false := by simp [h]
      have hdel : tableDel ty2 (kv :: rest) = kv :: tableDel ty2 rest := by
        simp [tableDel, List.filter_cons, hbeq]
      rw [hdel]
      by_cases hk : ty = kv.1
      · simp [List.lookup, hk]
      · have hky : (ty == kv.1) = false := by simp [hk]
        simp only [List.lookup, hky]
        exact ih

/-- C9: after one `leaveRoom` call from ANY state — partially joined or
not — every map is empty, both transports and the local stream and the
device and the conference id are nulled, a close/stop effect was emitted
for every production, consumption, live transport and capture track of
the pre-state, the three persistent handlers are no longer registered,
and a second call returns the identical state and handler table while
emitting no effect at all (idempotence; it cannot fail, being total). -/
theorem leaveRoom_idempotent (s : MediaState) (handlers : List (String × Nat)) :
    (leaveRoom s handlers).1.producers = [] ∧
    (leaveRoom s handlers).1.consumers = [] ∧
    (leaveRoom s handlers).1.remoteStreams = [] ∧
    (leaveRoom s handlers).1.sendTransport = none ∧
    (leaveRoom s handlers).1.recvTransport = none ∧
    (leaveRoom s handlers).1.localStream = none ∧
    (leaveRoom s handlers).1.deviceLoaded = false ∧
    (leaveRoom s handlers).1.conferenceId = none ∧
    (∀ kv ∈ s.producers,
      MediaEffect.producerClosed kv.2.id ∈ (leaveRoom s handlers).2.2) ∧
    (∀ kv ∈ s.consumers,
      MediaEffect.consumerClosed kv.2.id ∈ (leaveRoom s handlers).2.2) ∧
    (∀ t, s.sendTransport = some t →
      MediaEffect.transportClosed t.id ∈ (leaveRoom s handlers).2.2) ∧
    (∀ t, s.recvTransport = some t →
      MediaEffect.transportClosed t.id ∈ (leaveRoom s handlers).2.2) ∧
    (∀ ts, s.localStream = some ts → ∀ tr ∈ ts,
      MediaEffect.trackStopped tr.id ∈ (leaveRoom s handlers).2.2) ∧
    (leaveRoom s handlers).2.1.lookup "media:new_producer" = none ∧
    (leaveRoom s handlers).2.1.lookup "media:peer_left" = none ∧
    (leaveRoom s handlers).2.1.lookup "media:producer_closed" = none ∧
    leaveRoom (leaveRoom s handlers).1 (leaveRoom s handlers).2.1 =
      ((leaveRoom s handlers).1, (leaveRoom s handlers).2.1, []) := by
  refine ⟨rfl, rfl, rfl, rfl, rfl, rfl, rfl, rfl, ?_, ?_, ?_, ?_, ?_, ?_, ?_, ?_, ?_⟩
  · intro kv hkv
    simp only [leaveRoom, List.mem_append]
    exact Or.inl (Or.inl (Or.inl (Or.inl (Or.inr (List.mem_map_of_mem _ hkv)))))
  · intro kv hkv
    simp only [leaveRoom, List.mem_append]
    exact Or.inl (Or.inl (Or.inl (Or.inr (List.mem_map_of_mem _ hkv))))
  · intro t ht
    simp only [leaveRoom, List.mem_append]
    exact Or.inl (Or.inl (Or.inr (by simp [ht])))
  · intro t ht
    simp only [leaveRoom, List.mem_append]
    exact Or.inl (Or.inr (by simp [ht]))
  · intro ts hts tr htr
    simp only [leaveRoom, List.mem_append]
    exact Or.inr (by rw [hts]; exact List.mem_map_of_mem _ htr)
  · show (offThreeHandlers handlers).lookup "media:new_producer" = none
    unfold offThreeHandlers
    rw [lookup_tableDel_other _ _ (by decide), lookup_tableDel_other _ _ (by decide)]
    exact lookup_tableDel_self _ _
  · show (offThreeHandlers handlers).lookup "media:peer_left" = none
    unfold offThreeHandlers
    rw [lookup_tableDel_other _ _ (by decide)]
    exact lookup_tableDel_self _ _
  · show (offThreeHandlers handlers).lookup "media:producer_closed" = none
    exact lookup_tableDel_self _ _
  · show ((⟨[], [], [], none, none, none, false, none, false, true, false,
        s.screenProducerId, []⟩ : MediaState),
      offThreeHandlers (offThreeHandlers handlers), ([] : List MediaEffect)) =
      ((leaveRoom s handlers).1, (leaveRoom s handlers).2.1, [])
    rw [offThreeHandlers_idem]
    rfl

/-- A fully joined concrete state: one audio production, one
consumption, one remote stream, both transports, a local stream with one
track, a device, a conference, active screen share, and a pending chain. -/
def c9State : MediaState :=
  ⟨[("audio", ⟨"pa"⟩)], [("c1", ⟨"c1", "pr"⟩)], [("u1", ⟨"u1", [camTrack], "video"⟩)],
   some ⟨"st"⟩, some ⟨"rt"⟩, some [⟨"lt"⟩], true, some "conf1", true, false, true,
   some "sp", ["p9"]⟩

/-- The three media handlers plus an unrelated one. -/
def c9Handlers : List (String × Nat) :=
  [("media:new_producer", 1), ("media:peer_left", 2), ("media:producer_closed", 3),
   ("task:update", 9)]

/-- C9 witness: the teardown and idempotence at the fully joined
concrete state. -/
theorem leaveRoom_idempotent_witness :
    MediaEffect.producerClosed "pa" ∈ (leaveRoom c9State c9Handlers).2.2 ∧
    MediaEffect.trackStopped "lt" ∈ (leaveRoom c9State c9Handlers).2.2 ∧
    (leaveRoom c9State c9Handlers).2.1.lookup "media:new_producer" = none ∧
    leaveRoom (leaveRoom c9State c9Handlers).1 (leaveRoom c9State c9Handlers).2.1 =
      ((leaveRoom c9State c9Handlers).1, (leaveRoom c9State c9Handlers).2.1, []) := by
  obtain ⟨-, -, -, -, -, -, -, -, hp, -, -, -, htr, hn, -, -, hid⟩ :=
    leaveRoom_idempotent c9State c9Handlers
  refine ⟨?_, ?_, hn, hid⟩
  · exact hp ("audio", ⟨"pa"⟩) (by decide)
  · exact htr [⟨"lt"⟩] rfl ⟨"lt"⟩ (by decide)


end Roomler
